import Mathlib

/-!
Verification of the sdm-core delivery-goal dispatch layer: goal-message
signing/verification, Kubernetes job scheduling (naming, environment,
job-spec construction) and classifier-keyed goal caching.

Definitions are shallow embeddings of the TypeScript sources.  The goal
caching module is embedded from src/unnamed/part_000.  The Kubernetes
scheduler, the goal signer/verifier and the goal-relevance check are not
present under src (only their unit tests are); those definitions are
modelled from the specification, with the in-repo unit tests as ground
truth for concrete input/output pairs, and are marked as such in their
doc comments.
-/

/-! ## Kubernetes job naming -/

/-- Modelled from the spec: KubernetesGoalScheduler.ts is absent from src;
the goal name used in job names is the goal's unique name up to the first
hash sign, lower-cased (ground truth: the k8sJobName unit tests, e.g.
"Sundown.ts#L74" becomes "sundown.ts"). -/
def lowerGoalName (uniqueName : String) : String :=
  String.mk ((uniqueName.data.takeWhile (fun c => c ≠ '#')).map Char.toLower)

/-- Character allowed at the end of a Kubernetes resource name: a lowercase
letter or a digit. -/
def isNameAlnum (c : Char) : Bool :=
  c.isLower || c.isDigit

/-- Modelled from the spec: remove trailing characters that may not end a
Kubernetes resource name (ground truth: the "should safely truncate a long
job name" unit test, where a trailing hyphen left by truncation is
removed). -/
def trimJobName (l : List Char) : List Char :=
  (l.reverse.dropWhile (fun c => !(isNameAlnum c))).reverse

/-- Modelled from the spec: the job name built from the first container's
name, the first seven characters of the goal-set id and the sanitized
unique name, truncated to the platform maximum of 63 characters, with
trailing non-alphanumeric characters removed. -/
def k8sJobNameOfParts (containerName goalSetId uniqueName : String) : String :=
  String.mk (trimJobName
    ((containerName ++ "-job-" ++ String.mk (goalSetId.data.take 7) ++ "-"
      ++ lowerGoalName uniqueName).data.take 63))

/-- Container of a pod template: its name and environment variables. -/
structure ContainerModel where
  name : String
  env : List (String × String)
deriving DecidableEq, Repr

/-- Pod template: the list of its containers (only the fields the scheduler
reads are modelled). -/
structure PodSpecModel where
  containers : List ContainerModel
deriving DecidableEq, Repr

/-- Goal event fields read by the scheduler. -/
structure GoalEventModel where
  goalSetId : String
  uniqueName : String
  goalId : String
deriving DecidableEq, Repr

/-- Name of the first container of a pod template (the source reads
containers[0].name; the empty-container case, a runtime type error in the
source, is totalized to the empty string). -/
def firstContainerName (pod : PodSpecModel) : String :=
  match pod.containers with
  | [] => ""
  | c :: _ => c.name

/-- Modelled from the spec: k8sJobName of KubernetesGoalScheduler.ts. -/
def k8sJobName (pod : PodSpecModel) (g : GoalEventModel) : String :=
  k8sJobNameOfParts (firstContainerName pod) g.goalSetId g.uniqueName

/-- Sanitization as the spec sentence literally words it: lower-case the
unique name and strip every character outside lowercase letters, digits
and hyphen.  Used only to compare the spec's wording with the modelled
code. -/
def specResourceSanitized (uniqueName : String) : String :=
  String.mk ((uniqueName.data.map Char.toLower).filter
    (fun c => c.isLower || c.isDigit || c = '-'))

/-! ## Kubernetes job environment and job specification -/

/-- Execution context fields read when building the isolated-job
environment. -/
structure HandlerContextModel where
  workspaceId : String
  workspaceName : String
  correlationId : String
deriving DecidableEq, Repr

/-- Modelled from the spec: k8sJobEnv of KubernetesGoalScheduler.ts; the
ordered environment-variable list for the isolated process.  The
configName argument stands for the dispatching process's registration
name read from the running automation client. -/
def k8sJobEnv (pod : PodSpecModel) (g : GoalEventModel) (configName : String)
    (ctx : HandlerContextModel) : List (String × String) :=
  [("ATOMIST_JOB_NAME", k8sJobName pod g),
   ("ATOMIST_REGISTRATION_NAME",
     configName ++ "-job-" ++ String.mk (g.goalSetId.data.take 7) ++ "-"
       ++ lowerGoalName g.uniqueName),
   ("ATOMIST_GOAL_TEAM", ctx.workspaceId),
   ("ATOMIST_GOAL_TEAM_NAME", ctx.workspaceName),
   ("ATOMIST_GOAL_ID", g.goalId),
   ("ATOMIST_GOAL_SET_ID", g.goalSetId),
   ("ATOMIST_GOAL_UNIQUE_NAME", g.uniqueName),
   ("ATOMIST_CORRELATION_ID", ctx.correlationId),
   ("ATOMIST_ISOLATED_GOAL", "true")]

/-- Naming and environment slice of a Kubernetes job specification. -/
structure JobSpecModel where
  name : String
  ns : String
  containers : List ContainerModel
deriving DecidableEq, Repr

/-- Rename the first container of a pod template. -/
def renameFirstContainer (pod : PodSpecModel) (n : String) : PodSpecModel :=
  { containers :=
      match pod.containers with
      | [] => []
      | c :: rest => { c with name := n } :: rest }

/-- Modelled from the spec: the naming and environment part of
createJobSpec of KubernetesGoalScheduler.ts.  The job and its target
container are named via k8sJobName; the container is renamed before the
job environment is computed on the shared pod template, so the
ATOMIST_JOB_NAME entry is derived from the already renamed container
(ground truth: the createJobSpec unit test).  The k8sJobEnv entries are
appended after the container's existing environment. -/
def createJobSpec (pod : PodSpecModel) (ns : String) (g : GoalEventModel)
    (configName : String) (ctx : HandlerContextModel) : JobSpecModel :=
  let jobName := k8sJobName pod g
  let renamed := renameFirstContainer pod jobName
  let jobEnv := k8sJobEnv renamed g configName ctx
  { name := jobName
    ns := ns
    containers :=
      match renamed.containers with
      | [] => []
      | c :: rest => { c with env := c.env ++ jobEnv } :: rest }

/-- Value of an environment variable in the first container of a job
specification. -/
def jobEnvValue (j : JobSpecModel) (n : String) : Option String :=
  match j.containers with
  | [] => none
  | c :: _ => (c.env.find? (fun e => e.1 == n)).map (fun e => e.2)

/-! ## Goal signing and verification -/

/-- Lifecycle states of a goal (data model section of the spec). -/
inductive SdmGoalState where
  | requested
  | in_process
  | success
  | failure
  | waiting_for_approval
  | waiting_for_pre_approval
  | stopped
deriving DecidableEq, Repr

/-- Canonical form of a goal message: the fields covered by the signature.
The signature envelope itself and enrichment attached after signing (the
push field) are excluded. -/
structure NormalizedGoal where
  environment : String
  uniqueName : String
  name : String
  sha : String
  branch : String
  state : SdmGoalState
  description : String
  externalUrls : List (String × String)
  goalSetId : String
  version : Nat
deriving DecidableEq, Repr

/-- Detached signature envelope.  Modelled from the spec: the asymmetric
signature is abstracted symbolically as the canonical content that was
signed together with the identity of the key pair that signed it; a
verification key validates the signature exactly when the content matches
and the key identities agree. -/
structure GoalSignature where
  signedContent : NormalizedGoal
  keyId : String
deriving DecidableEq, Repr

/-- Goal message travelling over the event bus: covered fields, the push
enrichment attached by transport after signing (opaque here), and the
optional signature envelope. -/
structure SdmGoalMessage where
  environment : String
  uniqueName : String
  name : String
  sha : String
  branch : String
  state : SdmGoalState
  description : String
  externalUrls : List (String × String)
  goalSetId : String
  version : Nat
  push : Option String
  signature : Option GoalSignature
deriving DecidableEq, Repr

/-- Key pair used for signing, identified symbolically. -/
structure SigningKey where
  name : String
  keyId : String
deriving DecidableEq, Repr

/-- Trusted public key used for verification, identified symbolically. -/
structure VerificationKey where
  name : String
  keyId : String
deriving DecidableEq, Repr

/-- Goal signing configuration. -/
structure GoalSigningConfiguration where
  enabled : Bool
  signingKey : SigningKey
  verificationKeys : List VerificationKey
deriving DecidableEq, Repr

/-- Modelled from the spec: the canonical serialization of a goal message
(stable field ordering, excluding the signature envelope and the
post-signing push enrichment, which is stripped identically before
verification). -/
def normalizeGoal (g : SdmGoalMessage) : NormalizedGoal :=
  { environment := g.environment
    uniqueName := g.uniqueName
    name := g.name
    sha := g.sha
    branch := g.branch
    state := g.state
    description := g.description
    externalUrls := g.externalUrls
    goalSetId := g.goalSetId
    version := g.version }

/-- Check one signature against one trusted public key. -/
def verifySignature (content : NormalizedGoal) (sig : GoalSignature)
    (k : VerificationKey) : Bool :=
  decide (sig.signedContent = content) && decide (sig.keyId = k.keyId)

/-- Modelled from the spec: signGoal of goalSigning.ts serializes the
message canonically, signs it with the configured private key and returns
the message together with the signature envelope; the input message is
not mutated. -/
def signGoal (g : SdmGoalMessage) (gsc : GoalSigningConfiguration) : SdmGoalMessage :=
  { g with signature := some { signedContent := normalizeGoal g
                               keyId := gsc.signingKey.keyId } }

/-- Rejected form of a goal message: state forced to failure with a
human-readable reason (wording as asserted by the goalSigning unit
test). -/
def rejectedGoalMessage (g : SdmGoalMessage) : SdmGoalMessage :=
  { g with state := SdmGoalState.failure
           description := "Rejected " ++ g.name ++ " because signature was invalid" }

/-- Error message raised to the caller on verification failure (wording as
asserted by the goalSigning unit test). -/
def signatureInvalidError : String :=
  "SDM goal signature invalid. Rejecting goal!"

deriving instance DecidableEq for Except

/-- Outcome of verification: the value returned or the error raised, and
the messages published through the messaging collaborator. -/
structure VerifyOutcome where
  result : Except String SdmGoalMessage
  published : List SdmGoalMessage
deriving DecidableEq, Repr

/-- Modelled from the spec: verifyGoal of goalSigning.ts.  When signing is
enabled, the canonical serialization is recomputed (stripping the
post-signing enrichment) and the signature is checked against each
configured trusted public key until one validates; if none does (or the
signature is missing) the goal is marked failure, the rejection is
published and an error is raised.  When signing is disabled, verification
is a pass-through no-op. -/
def verifyGoal (g : SdmGoalMessage) (gsc : GoalSigningConfiguration) : VerifyOutcome :=
  if gsc.enabled then
    match g.signature with
    | some sig =>
      if gsc.verificationKeys.any (fun k => verifySignature (normalizeGoal g) sig k) then
        { result := Except.ok g, published := [] }
      else
        { result := Except.error signatureInvalidError
          published := [rejectedGoalMessage g] }
    | none =>
      { result := Except.error signatureInvalidError
        published := [rejectedGoalMessage g] }
  else
    { result := Except.ok g, published := [] }

/-! ## Goal caching (embedded from src/unnamed/part_000, goalCaching.ts)

Effectful collaborators are modelled explicitly: the cache backend's
operations return Except (an error value models a thrown exception), the
project exposes the glob-resolved file paths per pattern, push tests are
boolean predicates on the push, and a fallback listener invocation is
recorded by the listener's name (fallback listener bodies themselves are
treated as non-throwing actions). -/

/-- Lifecycle phases of a goal project listener. -/
inductive GoalProjectListenerEvent where
  | before
  | after
deriving DecidableEq, Repr

/-- Cache backend (GoalCache interface): put, retrieve and remove are
keyed by classifier and may fail. -/
structure GoalCache where
  put : String → List String → Except String Unit
  retrieve : String → Except String Unit
  remove : Option String → Except String Unit

/-- Project view used by the cache listeners: glob patterns resolved to
matching file paths (projectUtils.gatherFromFiles). -/
structure GitProject where
  filesFor : List String → List String

/-- Goal invocation slice read by the caching listeners: the global cache
enable flag, the configured backend and the push. -/
structure GoalInvocation where
  cacheEnabled : Bool
  goalCache : GoalCache
  push : String

/-- Several classifiers with glob patterns (entries of GoalCacheOptions);
a pattern of the source type string or string-array is modelled as the
string list it is normalized to. -/
structure CacheEntrySpec where
  classifier : String
  pattern : List String

/-- Cache-miss fallback listener registration: name, optional lifecycle
phases, optional push test (a missing push test means AnyPush). -/
structure GoalProjectListenerRegistration where
  name : String
  events : Option (List GoalProjectListenerEvent)
  pushTest : Option (String → Bool)

/-- Options for goal caching; onCacheMiss of the source type
registration-or-array-or-undefined is modelled as an optional list. -/
structure GoalCacheOptions where
  pushTest : Option (String → Bool)
  entries : List CacheEntrySpec
  onCacheMiss : Option (List GoalProjectListenerRegistration)

/-- Reads sdm.cache.enabled from the configuration (false when unset). -/
def isCacheEnabled (gi : GoalInvocation) : Bool :=
  gi.cacheEnabled

/-- The NoOpListener registration installed as default cache-miss
fallback by cacheRestore. -/
def NoOpGoalProjectListenerRegistration : GoalProjectListenerRegistration :=
  { name := "NoOpListener"
    events := none
    pushTest := some (fun _ => true) }

/-- Both lifecycle phases; the default when a fallback registers none. -/
def allListenerEvents : List GoalProjectListenerEvent :=
  [GoalProjectListenerEvent.before, GoalProjectListenerEvent.after]

/-- Does a fallback registration fire for this event and push: its events
(default both) contain the event and its push test (default AnyPush)
passes. -/
def fallbackMatches (fb : GoalProjectListenerRegistration) (push : String)
    (event : GoalProjectListenerEvent) : Bool :=
  ((fb.events.getD allListenerEvents).contains event)
    && ((fb.pushTest.getD (fun _ => true)) push)

/-- Embeds invokeCacheMissListeners: walk the fallback registrations in
order and invoke (record) each one whose events and push test match. -/
def invokeCacheMissListeners (fallbacks : List GoalProjectListenerRegistration)
    (push : String) (event : GoalProjectListenerEvent) : List String :=
  fallbacks.foldl
    (fun acc fb => if fallbackMatches fb push event then acc ++ [fb.name] else acc) []

/-- Embeds the listener returned by cachePut: when caching is enabled,
resolve each configured entry's patterns (optionally restricted to one
classifier) and store non-empty match sets in the backend; backend calls
are not guarded, so a backend error propagates. -/
def cachePutListener (options : GoalCacheOptions) (classifier : Option String)
    (gi : GoalInvocation) (p : GitProject) : Except String Unit :=
  if isCacheEnabled gi then
    let entries : List CacheEntrySpec :=
      match classifier with
      | some c => options.entries.filter (fun e => e.classifier == c)
      | none => options.entries
    entries.foldlM
      (fun (_ : Unit) (entry : CacheEntrySpec) =>
        let files := p.filesFor entry.pattern
        if files.isEmpty then pure () else gi.goalCache.put entry.classifier files)
      ()
  else
    pure ()

/-- Trace of one cache-restore run: the classifiers passed to the
backend's retrieve, and the names of the invoked fallback listeners. -/
structure RestoreTrace where
  retrieved : List String
  invoked : List String
deriving DecidableEq, Repr

/-- Embeds the listener returned by cacheRestore: when caching is enabled,
try to retrieve every requested classifier, catching backend errors and
invoking the cache-miss fallbacks (defaulted to the NoOpListener) on each
failure; when caching is disabled, invoke the fallbacks without touching
the backend. -/
def cacheRestoreListener (options : GoalCacheOptions) (classifier : String)
    (classifiers : List String) (gi : GoalInvocation)
    (event : GoalProjectListenerEvent) : Except String RestoreTrace :=
  let fallbacks := options.onCacheMiss.getD [NoOpGoalProjectListenerRegistration]
  if isCacheEnabled gi then
    (classifier :: classifiers).foldlM
      (fun tr c =>
        match gi.goalCache.retrieve c with
        | Except.ok _ =>
          pure { retrieved := tr.retrieved ++ [c], invoked := tr.invoked }
        | Except.error _ =>
          pure { retrieved := tr.retrieved ++ [c]
                 invoked := tr.invoked ++ invokeCacheMissListeners fallbacks gi.push event })
      { retrieved := [], invoked := [] }
  else
    pure { retrieved := []
           invoked := invokeCacheMissListeners fallbacks gi.push event }

/-- Embeds the listener returned by cacheRemove: when caching is enabled,
the backend's remove result is returned as is (a backend error
propagates). -/
def cacheRemoveListener (_options : GoalCacheOptions) (classifier : Option String)
    (gi : GoalInvocation) : Except String Unit :=
  if isCacheEnabled gi then gi.goalCache.remove classifier else pure ()

/-! ## Goal relevance (validateGoal.ts) -/

/-- The marker separating a parent SDM registration name from the suffix
appended for an isolated job. -/
def jobMarker : List Char :=
  ['-', 'j', 'o', 'b', '-']

/-- Modelled from the spec: validateGoal.ts is absent from src; an SDM
running as an isolated job carries its parent's registration name with a
job-name suffix appended after "-job-" (spec section on k8sJobEnv), so
the relevance check strips everything from the first occurrence of the
marker (ground truth: the isGoalRelevant unit tests in
src/unnamed/part_004). -/
def stripJobQualifier : List Char → List Char
  | [] => []
  | c :: cs =>
    if jobMarker.isPrefixOf (c :: cs) then [] else c :: stripJobQualifier cs

/-- Modelled from the spec: isGoalRelevant compares the goal's fulfillment
registration with the running SDM's registration name, the latter with
any isolated-job suffix stripped. -/
def isGoalRelevant (goalRegistration : String) (registrationName : String) : Bool :=
  decide (goalRegistration.data = stripJobQualifier registrationName.data)

/-- Marker occurrence test: some tail of the list starts with the job
marker. -/
def hasJobMarker : List Char → Bool
  | [] => false
  | c :: cs => jobMarker.isPrefixOf (c :: cs) || hasJobMarker cs

/-! ## Scheduler selection from the environment (isConfiguredInEnv)

Modelled from the spec: a selector variable's raw value may be a bare
token, a JSON-encoded string or a JSON-encoded array of strings; each
variable is parsed independently (falling back to the bare-string reading
when JSON parsing fails), all resolved tokens are unioned, and the check
succeeds iff any requested candidate is in that union.  The JSON parser
below covers exactly the value shapes the spec names: double-quoted
strings without escape sequences and arrays of such strings. -/

/-- JSON values a selector variable can decode to. -/
inductive JsonValue where
  | jstr (s : String)
  | jarr (ss : List String)
deriving DecidableEq, Repr

/-- Drop leading blanks. -/
def skipSpaces (l : List Char) : List Char :=
  l.dropWhile (fun c => c = ' ')

/-- Scan a double-quoted string body after its opening quote: the content
up to the closing quote and the remaining input (escape sequences are
outside the modelled value shapes and fail). -/
def scanQuoted : List Char → Option (List Char × List Char)
  | [] => none
  | c :: rest =>
    if c = '"' then some ([], rest)
    else if c = '\\' then none
    else
      match scanQuoted rest with
      | some (s, r) => some (c :: s, r)
      | none => none

/-- Parse the elements of a JSON array of strings after the opening
bracket; fuel bounds the recursion. -/
def parseArrayElems : Nat → List Char → Option (List (List Char) × List Char)
  | 0, _ => none
  | fuel + 1, l =>
    match skipSpaces l with
    | ']' :: rem => some ([], rem)
    | '"' :: rest =>
      match scanQuoted rest with
      | some (content, rem) =>
        match skipSpaces rem with
        | ',' :: rem2 =>
          match parseArrayElems fuel rem2 with
          | some (items, rem3) => some (content :: items, rem3)
          | none => none
        | ']' :: rem2 => some ([content], rem2)
        | _ => none
      | none => none
    | _ => none

/-- Parse a full selector value as JSON: a string or an array of strings,
with nothing but blanks around it; anything else fails. -/
def parseJsonValue (s : String) : Option JsonValue :=
  match skipSpaces s.data with
  | '"' :: rest =>
    match scanQuoted rest with
    | some (content, rem) =>
      if skipSpaces rem = [] then some (JsonValue.jstr (String.mk content)) else none
    | none => none
  | '[' :: rest =>
    match parseArrayElems (rest.length + 1) rest with
    | some (items, rem) =>
      if skipSpaces rem = [] then some (JsonValue.jarr (items.map String.mk)) else none
    | none => none
  | _ => none

/-- Tokens resolved from one raw selector-variable value: the decoded JSON
string or array elements, or the bare string itself when JSON parsing
fails. -/
def resolveSelectorValue (v : String) : List String :=
  match parseJsonValue v with
  | some (JsonValue.jstr s) => [s]
  | some (JsonValue.jarr ss) => ss
  | none => [v]

/-- Modelled from the spec: isConfiguredInEnv over an explicit snapshot of
the selector variables (absent variables contribute nothing): true iff
some requested candidate is in the union of all resolved tokens. -/
def isConfiguredInEnv (env : List (Option String)) (candidates : List String) : Bool :=
  candidates.any (fun c => ((env.filterMap id).flatMap resolveSelectorValue).contains c)

/-- Structured form of a selector-variable value, used to quantify over
the value shapes the spec names. -/
inductive SelectorValue where
  | bare (s : String)
  | jstr (s : String)
  | jarr (ss : List String)
deriving DecidableEq, Repr

/-- A token that can sit inside a JSON string without escaping. -/
def jsonTokenOk (s : String) : Bool :=
  s.data.all (fun c => c ≠ '"' && c ≠ '\\')

/-- Well-formedness of a structured selector value: a bare token must not
itself parse as JSON, and quoted tokens must need no escaping. -/
def selectorWellFormed : SelectorValue → Bool
  | SelectorValue.bare s => (parseJsonValue s).isNone
  | SelectorValue.jstr s => jsonTokenOk s
  | SelectorValue.jarr ss => ss.all jsonTokenOk

/-- Raw characters of an encoded JSON array body (after the opening
bracket). -/
def arrayBodyChars : List String → List Char
  | [] => [']']
  | [s] => '"' :: (s.data ++ '"' :: [']'])
  | s :: s2 :: rest => '"' :: (s.data ++ '"' :: ',' :: arrayBodyChars (s2 :: rest))

/-- Encode a structured selector value to the raw environment-variable
string. -/
def encodeSelector : SelectorValue → String
  | SelectorValue.bare s => s
  | SelectorValue.jstr s => "\"" ++ s ++ "\""
  | SelectorValue.jarr ss => String.mk ('[' :: arrayBodyChars ss)

/-- Tokens a structured selector value stands for. -/
def resolvedTokens : SelectorValue → List String
  | SelectorValue.bare s => [s]
  | SelectorValue.jstr s => [s]
  | SelectorValue.jarr ss => ss

/-! ## Concrete fixtures (taken from the repository's unit tests) -/

/-- Pod of the "should return a job name" test. -/
def podWild : PodSpecModel :=
  { containers := [{ name := "wild-horses", env := [] }] }

/-- Goal event of the "should return a job name" test. -/
def goalWild : GoalEventModel :=
  { goalSetId := "abcdef0-123456789-abcdef"
    uniqueName := "Sundown.ts#L74"
    goalId := "" }

/-- Container of the createJobSpec test (environment trimmed to the
entries relevant to naming). -/
def containerDemo : ContainerModel :=
  { name := "demo-sdm"
    env := [("ATOMIST_CONFIG_PATH", "/opt/atm/client.config.json"),
            ("ATOMIST_GOAL_SCHEDULER", "kubernetes"),
            ("HOME", "/home/atomist"),
            ("TMPDIR", "/tmp")] }

/-- Pod of the createJobSpec test. -/
def podDemo : PodSpecModel :=
  { containers := [containerDemo] }

/-- Goal event of the createJobSpec test. -/
def goalDemo : GoalEventModel :=
  { goalSetId := "3bd7f5e0-f504-482c-8498-fd2e1c0492c2"
    uniqueName := "container-maven-build#container.ts:64"
    goalId := "258087f6-9130-556f-9572-c82981b6169e" }

/-- Execution context of the createJobSpec test. -/
def ctxDemo : HandlerContextModel :=
  { workspaceId := "T7GMF5USG"
    workspaceName := "atomist-playground"
    correlationId := "6757edf5-a95b-4948-8dd2-dc9fd935509f" }

/-- Goal message fixture in the spirit of the goalSigning tests. -/
def goalMsgFixture : SdmGoalMessage :=
  { environment := "0-code"
    uniqueName := "build#goals.ts:42"
    name := "build"
    sha := "329f8ed3746d969233ef11c5cae72a3d9231a09d"
    branch := "master"
    state := SdmGoalState.in_process
    description := "Building"
    externalUrls := []
    goalSetId := "61d31727-3006-4979-b846-9f20d4e16cdd"
    version := 17
    push := none
    signature := none }

/-- The same goal message with the recorded external links altered, as in
the "should reject tampered goal" test. -/
def goalMsgTamperedFixture : SdmGoalMessage :=
  { goalMsgFixture with
      externalUrls := [("Google", "https://google.com")] }

/-- Enabled signing configuration whose verification keys include the
signing key's public key. -/
def gscFixture : GoalSigningConfiguration :=
  { enabled := true
    signingKey := { name := "atomist.com/test", keyId := "sdm-core-test" }
    verificationKeys := [{ name := "atomist.com/test", keyId := "sdm-core-test" }] }

/-- Cache backend whose operations all fail. -/
def failingGoalCache : GoalCache :=
  { put := fun _ _ => Except.error "put failed"
    retrieve := fun _ => Except.error "no cache entry"
    remove := fun _ => Except.error "remove failed" }

/-- Invocation with caching enabled and the failing backend. -/
def giFailing : GoalInvocation :=
  { cacheEnabled := true, goalCache := failingGoalCache, push := "push1" }

/-- Invocation with caching globally disabled. -/
def giDisabled : GoalInvocation :=
  { cacheEnabled := false, goalCache := failingGoalCache, push := "push1" }

/-- Project in which every pattern matches two files. -/
def projFixture : GitProject :=
  { filesFor := fun _ => ["package.json", "package-lock.json"] }

/-- Caching options with one entry and no explicit fallback. -/
def putOptionsFixture : GoalCacheOptions :=
  { pushTest := none
    entries := [{ classifier := "default", pattern := ["**"] }]
    onCacheMiss := none }

/-- Fallback registration matching the before phase with a passing push
test. -/
def fbBefore : GoalProjectListenerRegistration :=
  { name := "fallback-before"
    events := some [GoalProjectListenerEvent.before]
    pushTest := some (fun _ => true) }

/-- Fallback registration restricted to the after phase, no push test. -/
def fbAfter : GoalProjectListenerRegistration :=
  { name := "fallback-after"
    events := some [GoalProjectListenerEvent.after]
    pushTest := none }

/-- Fallback registration with no phases but a failing push test. -/
def fbNoPush : GoalProjectListenerRegistration :=
  { name := "fallback-nopush"
    events := none
    pushTest := some (fun _ => false) }

/-- Caching options with three differently gated fallbacks. -/
def restoreOptionsFixture : GoalCacheOptions :=
  { pushTest := none
    entries := [{ classifier := "default", pattern := ["**"] }]
    onCacheMiss := some [fbBefore, fbAfter, fbNoPush] }

/-- Selector-variable snapshot of the "multiple json array string value"
test: one variable holding a JSON array, the other unset. -/
def selectorVarsFixture : List (Option SelectorValue) :=
  [some (SelectorValue.jarr ["kubernetes-all", "docker"]), none]

/-! ## Helper lemmas -/

theorem length_dropWhile_le' (p : Char → Bool) :
    ∀ l : List Char, (l.dropWhile p).length ≤ l.length := by
  intro l
  induction l with
  | nil => simp
  | cons a l ih =>
    by_cases h : p a
    · simp only [List.dropWhile_cons_of_pos h, List.length_cons]
      exact Nat.le_succ_of_le ih
    · simp [List.dropWhile_cons_of_neg h]

theorem length_trimJobName_le (l : List Char) :
    (trimJobName l).length ≤ l.length := by
  unfold trimJobName
  calc ((l.reverse.dropWhile (fun c => !(isNameAlnum c))).reverse).length
      = (l.reverse.dropWhile (fun c => !(isNameAlnum c))).length := by
        simp
    _ ≤ l.reverse.length := length_dropWhile_le' _ _
    _ = l.length := by simp

theorem string_data_append (a b : String) : (a ++ b).data = a.data ++ b.data := by
  cases a
  cases b
  rfl

theorem find?_append_left_none {α : Type} (p : α → Bool) (l₁ l₂ : List α)
    (h : ∀ x ∈ l₁, p x = false) : (l₁ ++ l₂).find? p = l₂.find? p := by
  induction l₁ with
  | nil => simp
  | cons a l ih =>
    have ha : ¬ p a = true := by simp [h a (List.mem_cons_self a l)]
    rw [List.cons_append, List.find?_cons_of_neg _ ha]
    exact ih (fun x hx => h x (List.mem_cons_of_mem a hx))

/-! ## Claim theorems -/

/-- C3: for arbitrary container name, goal-set id and unique name inputs,
including adversarially long ones, the job name built by k8sJobName never
exceeds 63 characters, and the construction is deterministic: two calls
on identical inputs yield identical output. -/
theorem k8sJobName_length_bounded_and_deterministic
    (c gs un c' gs' un' : String)
    (hc : c = c') (hgs : gs = gs') (hun : un = un') :
    (k8sJobNameOfParts c gs un).length ≤ 63 ∧
      k8sJobNameOfParts c gs un = k8sJobNameOfParts c' gs' un' := by
  subst hc
  subst hgs
  subst hun
  refine ⟨?_, rfl⟩
  show (trimJobName (((c ++ "-job-" ++ String.mk (gs.data.take 7) ++ "-"
      ++ lowerGoalName un).data).take 63)).length ≤ 63
  refine le_trans (length_trimJobName_le _) ?_
  refine le_trans (Nat.le_of_eq (List.length_take _ _)) ?_
  exact Nat.min_le_left _ _

/-- C3 witness: the bound and determinism at 100-character adversarial
inputs. -/
theorem k8sJobName_length_bounded_witness :
    (k8sJobNameOfParts (String.mk (List.replicate 100 'a'))
        (String.mk (List.replicate 100 'b'))
        (String.mk (List.replicate 100 'c'))).length ≤ 63 ∧
      k8sJobNameOfParts (String.mk (List.replicate 100 'a'))
          (String.mk (List.replicate 100 'b'))
          (String.mk (List.replicate 100 'c'))
        = k8sJobNameOfParts (String.mk (List.replicate 100 'a'))
            (String.mk (List.replicate 100 'b'))
            (String.mk (List.replicate 100 'c')) :=
  k8sJobName_length_bounded_and_deterministic _ _ _ _ _ _ rfl rfl rfl

/-- C4 counterexample: on the spec's own example input the job name is
not the container name, marker, goal-set head and a unique name
lower-cased and stripped to the lowercase/digit/hyphen alphabet: the dot
of "sundown.ts" survives and the fragment after the hash sign is dropped
wholesale rather than character-stripped. -/
theorem k8sJobName_sanitization_counterexample :
    k8sJobName podWild goalWild
      ≠ firstContainerName podWild ++ "-job-"
        ++ String.mk (goalWild.goalSetId.data.take 7) ++ "-"
        ++ specResourceSanitized goalWild.uniqueName := by decide

/-- C4 (amended): k8sJobName returns the container name, "-job-", the
first seven characters of the goal-set id and the unique name truncated
at its first hash sign and lower-cased, the whole string truncated to 63
characters and stripped of trailing characters that are not lowercase
letters or digits; on the spec's example input it returns
"wild-horses-job-abcdef0-sundown.ts". -/
theorem k8sJobName_formula (pod : PodSpecModel) (g : GoalEventModel) :
    k8sJobName pod g
      = String.mk (((((firstContainerName pod).data
          ++ ['-', 'j', 'o', 'b', '-']
          ++ g.goalSetId.data.take 7
          ++ '-' :: (g.uniqueName.data.takeWhile (fun ch => ch ≠ '#')).map Char.toLower).take
            63).reverse.dropWhile (fun ch => !(ch.isLower || ch.isDigit))).reverse)
    ∧ k8sJobName podWild goalWild = "wild-horses-job-abcdef0-sundown.ts" := by
  constructor
  · show String.mk (trimJobName (((firstContainerName pod) ++ "-job-"
        ++ String.mk (g.goalSetId.data.take 7) ++ "-"
        ++ lowerGoalName g.uniqueName).data.take 63)) = _
    unfold trimJobName isNameAlnum lowerGoalName
    rw [string_data_append, string_data_append, string_data_append, string_data_append]
    simp only [List.append_assoc, List.cons_append, List.singleton_append, List.nil_append]
  · decide

/-- C9 counterexample: on the createJobSpec unit-test input the
ATOMIST_JOB_NAME variable appended to the target container does not equal
the job's metadata name: the container is renamed to the job name before
the job environment is computed, so the variable carries the job name
with a second, truncated job suffix. -/
theorem createJobSpec_jobNameEnv_counterexample :
    jobEnvValue (createJobSpec podDemo "sdm" goalDemo "@atomist/demo-sdm" ctxDemo)
        "ATOMIST_JOB_NAME"
      = some "demo-sdm-job-3bd7f5e-container-maven-build-job-3bd7f5e-containe"
    ∧ (createJobSpec podDemo "sdm" goalDemo "@atomist/demo-sdm" ctxDemo).name
      = "demo-sdm-job-3bd7f5e-container-maven-build"
    ∧ jobEnvValue (createJobSpec podDemo "sdm" goalDemo "@atomist/demo-sdm" ctxDemo)
        "ATOMIST_JOB_NAME"
      ≠ some (createJobSpec podDemo "sdm" goalDemo "@atomist/demo-sdm" ctxDemo).name := by
  refine ⟨by decide, by decide, by decide⟩

/-- C9 (amended): in the job specification built by createJobSpec the
appended ATOMIST_JOB_NAME variable equals k8sJobName applied to the pod
template after its target container has been renamed to the job name
(the job name suffixed and truncated a second time), while the job's
metadata name is k8sJobName of the original pod; the two are in general
different. -/
theorem createJobSpec_jobNameEnv
    (pod : PodSpecModel) (ns : String) (g : GoalEventModel)
    (configName : String) (ctx : HandlerContextModel)
    (c : ContainerModel) (rest : List ContainerModel)
    (hpod : pod.containers = c :: rest)
    (hfresh : ∀ ev ∈ c.env, (ev.1 == "ATOMIST_JOB_NAME") = false) :
    jobEnvValue (createJobSpec pod ns g configName ctx) "ATOMIST_JOB_NAME"
      = some (k8sJobName (renameFirstContainer pod (k8sJobName pod g)) g)
    ∧ (createJobSpec pod ns g configName ctx).name = k8sJobName pod g := by
  constructor
  · show jobEnvValue _ _ = _
    unfold createJobSpec jobEnvValue
    simp only [renameFirstContainer, hpod]
    rw [find?_append_left_none _ c.env _ hfresh]
    simp [k8sJobEnv, renameFirstContainer, hpod]
  · rfl

/-- C9 witness: the amended statement evaluated on the createJobSpec
unit-test input. -/
theorem createJobSpec_jobNameEnv_witness :
    jobEnvValue (createJobSpec podDemo "sdm" goalDemo "@atomist/demo-sdm" ctxDemo)
        "ATOMIST_JOB_NAME"
      = some (k8sJobName (renameFirstContainer podDemo (k8sJobName podDemo goalDemo)) goalDemo)
    ∧ (createJobSpec podDemo "sdm" goalDemo "@atomist/demo-sdm" ctxDemo).name
      = k8sJobName podDemo goalDemo :=
  createJobSpec_jobNameEnv podDemo "sdm" goalDemo "@atomist/demo-sdm" ctxDemo
    containerDemo [] (by decide) (by decide)

theorem stripJobQualifier_of_no_marker :
    ∀ l : List Char, hasJobMarker l = false → stripJobQualifier l = l := by
  intro l
  induction l with
  | nil => intro _; rfl
  | cons c cs ih =>
    intro h
    have h' := h
    unfold hasJobMarker at h'
    rw [Bool.or_eq_false_iff] at h'
    unfold stripJobQualifier
    rw [h'.1]
    simp [ih h'.2]

theorem stripJobQualifier_append_marker :
    ∀ (a s : List Char),
      (∀ i, i < a.length →
        jobMarker.isPrefixOf ((a ++ jobMarker ++ s).drop i) = false) →
      stripJobQualifier (a ++ jobMarker ++ s) = a := by
  intro a
  induction a with
  | nil =>
    intro s _
    show stripJobQualifier ('-' :: ('j' :: 'o' :: 'b' :: '-' :: s)) = []
    unfold stripJobQualifier
    simp [jobMarker, List.isPrefixOf]
  | cons c cs ih =>
    intro s h
    have h0 : jobMarker.isPrefixOf (c :: (cs ++ jobMarker ++ s)) = false := by
      have := h 0 (Nat.zero_lt_succ _)
      simpa using this
    show stripJobQualifier (c :: (cs ++ jobMarker ++ s)) = c :: cs
    unfold stripJobQualifier
    rw [h0]
    simp only [Bool.false_eq_true, if_false]
    refine congrArg (c :: ·) (ih s ?_)
    intro i hi
    have := h (i + 1) (Nat.succ_lt_succ hi)
    simpa using this

/-- C10: isGoalRelevant accepts a goal whose fulfillment registration
equals the running SDM's registration name, accepts it as well when the
running SDM is an isolated job whose registration name is the fulfillment
registration extended with a "-job-..." suffix, and rejects a goal whose
fulfillment registration names a different SDM. -/
theorem isGoalRelevant_registration_match
    (reg suffix other : String)
    (hclean : hasJobMarker reg.data = false)
    (hboundary : ∀ i, i < reg.data.length →
      jobMarker.isPrefixOf ((reg.data ++ jobMarker ++ suffix.data).drop i) = false)
    (hother : other ≠ reg) :
    isGoalRelevant reg reg = true
    ∧ isGoalRelevant reg (reg ++ "-job-" ++ suffix) = true
    ∧ isGoalRelevant other reg = false := by
  have hdata : (reg ++ "-job-" ++ suffix).data = reg.data ++ jobMarker ++ suffix.data := by
    rw [string_data_append, string_data_append]
    rfl
  refine ⟨?_, ?_, ?_⟩
  · unfold isGoalRelevant
    rw [stripJobQualifier_of_no_marker reg.data hclean]
    simp
  · unfold isGoalRelevant
    rw [hdata, stripJobQualifier_append_marker reg.data suffix.data hboundary]
    simp
  · unfold isGoalRelevant
    rw [stripJobQualifier_of_no_marker reg.data hclean]
    have : other.data ≠ reg.data := by
      intro hc
      apply hother
      cases other
      cases reg
      exact congrArg String.mk (by simpa using hc)
    simp [this]

/-- C10 witness: the three relevance checks of the isGoalRelevant unit
tests. -/
theorem isGoalRelevant_registration_match_witness :
    isGoalRelevant "my-super-sdm" "my-super-sdm" = true
    ∧ isGoalRelevant "my-super-sdm" ("my-super-sdm" ++ "-job-" ++ "4342234-build") = true
    ∧ isGoalRelevant "some-super-sdm" "my-super-sdm" = false :=
  isGoalRelevant_registration_match "my-super-sdm" "4342234-build" "some-super-sdm"
    (by decide) (by decide) (by decide)

theorem invokeCacheMissListeners_eq_filter_aux
    (push : String) (event : GoalProjectListenerEvent) :
    ∀ (fallbacks : List GoalProjectListenerRegistration) (acc : List String),
      fallbacks.foldl
          (fun acc fb => if fallbackMatches fb push event then acc ++ [fb.name] else acc) acc
        = acc ++ (fallbacks.filter (fun fb => fallbackMatches fb push event)).map
            (fun fb => fb.name) := by
  intro fallbacks
  induction fallbacks with
  | nil => intro acc; simp
  | cons fb rest ih =>
    intro acc
    by_cases h : fallbackMatches fb push event
    · rw [List.foldl_cons, if_pos h, ih]
      simp [List.filter_cons, h]
    · rw [List.foldl_cons, if_neg h, ih]
      simp [List.filter_cons, h]

theorem invokeCacheMissListeners_eq_filter
    (fallbacks : List GoalProjectListenerRegistration) (push : String)
    (event : GoalProjectListenerEvent) :
    invokeCacheMissListeners fallbacks push event
      = (fallbacks.filter (fun fb => fallbackMatches fb push event)).map
          (fun fb => fb.name) := by
  unfold invokeCacheMissListeners
  simpa using invokeCacheMissListeners_eq_filter_aux push event fallbacks []

theorem cacheRestoreListener_is_ok
    (options : GoalCacheOptions) (classifier : String) (classifiers : List String)
    (gi : GoalInvocation) (event : GoalProjectListenerEvent) :
    ∃ tr, cacheRestoreListener options classifier classifiers gi event = Except.ok tr := by
  unfold cacheRestoreListener
  by_cases h : isCacheEnabled gi
  · rw [if_pos h]
    generalize ({ retrieved := [], invoked := [] } : RestoreTrace) = init
    induction (classifier :: classifiers) generalizing init with
    | nil => exact ⟨init, rfl⟩
    | cons c cs ih =>
      simp only [List.foldlM_cons]
      cases gi.goalCache.retrieve c <;> exact ih _
  · rw [if_neg h]
    exact ⟨_, rfl⟩

/-- C5 counterexample: with caching enabled and a backend whose put and
remove throw, the cache-put and cache-remove listeners return the backend
error to their caller instead of swallowing it. -/
theorem cachePut_remove_error_counterexample :
    cachePutListener putOptionsFixture none giFailing projFixture
      = Except.error "put failed"
    ∧ cacheRemoveListener putOptionsFixture none giFailing
      = Except.error "remove failed" := by
  exact ⟨rfl, rfl⟩

/-- C5 (amended): an error thrown by the cache backend inside the
cache-put listener (from goalCache.put on the first entry with a
non-empty match set) or inside the cache-remove listener (from
goalCache.remove) is not caught: the listener propagates it to its
caller. -/
theorem cachePut_remove_error_propagates
    (options : GoalCacheOptions) (gi : GoalInvocation) (p : GitProject)
    (entry : CacheEntrySpec) (rest : List CacheEntrySpec) (e : String)
    (cl : Option String)
    (henabled : isCacheEnabled gi = true)
    (hentries : options.entries = entry :: rest)
    (hfiles : (p.filesFor entry.pattern).isEmpty = false)
    (hput : gi.goalCache.put entry.classifier (p.filesFor entry.pattern)
      = Except.error e) :
    cachePutListener options none gi p = Except.error e
    ∧ cacheRemoveListener options cl gi = gi.goalCache.remove cl := by
  constructor
  · unfold cachePutListener
    rw [if_pos (by simp [henabled])]
    simp only [hentries, List.foldlM_cons, hfiles, Bool.false_eq_true, if_false, hput]
    rfl
  · unfold cacheRemoveListener
    rw [if_pos (by simp [henabled])]

/-- C5 witness: the amended statement on the failing-backend fixture. -/
theorem cachePut_remove_error_propagates_witness :
    cachePutListener putOptionsFixture none giFailing projFixture
      = Except.error "put failed"
    ∧ cacheRemoveListener putOptionsFixture (some "default") giFailing
      = giFailing.goalCache.remove (some "default") :=
  cachePut_remove_error_propagates putOptionsFixture giFailing projFixture
    { classifier := "default", pattern := ["**"] } [] "put failed" (some "default")
    rfl rfl rfl rfl

/-- C6: with caching enabled, when the backend retrieve for the requested
classifier fails, the cache-restore listener catches the failure and
invokes exactly the configured cache-miss fallbacks (defaulted to the
NoOpListener) whose lifecycle phases (default: both) contain the current
event and whose push test (default: AnyPush) passes; and the
cache-restore listener never throws, whatever the classifiers and the
backend do. -/
theorem cacheRestore_miss_invokes_matching_fallbacks
    (options : GoalCacheOptions) (gi : GoalInvocation)
    (event : GoalProjectListenerEvent) (c e : String)
    (henabled : isCacheEnabled gi = true)
    (hmiss : gi.goalCache.retrieve c = Except.error e) :
    cacheRestoreListener options c [] gi event
      = Except.ok
          { retrieved := [c]
            invoked :=
              ((options.onCacheMiss.getD [NoOpGoalProjectListenerRegistration]).filter
                (fun fb => fallbackMatches fb gi.push event)).map (fun fb => fb.name) }
    ∧ ∀ (classifier : String) (classifiers : List String),
        ∃ tr, cacheRestoreListener options classifier classifiers gi event
          = Except.ok tr := by
  constructor
  · unfold cacheRestoreListener
    rw [if_pos (by simp [henabled])]
    simp only [List.foldlM_cons, hmiss, invokeCacheMissListeners_eq_filter,
      List.foldlM_nil, List.nil_append]
    rfl
  · intro classifier classifiers
    exact cacheRestoreListener_is_ok options classifier classifiers gi event

/-- C6 witness: on the failing-backend fixture with three differently
gated fallbacks, a miss in the before phase invokes exactly the fallback
whose phase and push test match. -/
theorem cacheRestore_miss_invokes_matching_fallbacks_witness :
    cacheRestoreListener restoreOptionsFixture "default" [] giFailing
        GoalProjectListenerEvent.before
      = Except.ok
          { retrieved := ["default"]
            invoked :=
              ((restoreOptionsFixture.onCacheMiss.getD
                  [NoOpGoalProjectListenerRegistration]).filter
                (fun fb => fallbackMatches fb giFailing.push
                  GoalProjectListenerEvent.before)).map (fun fb => fb.name) }
    ∧ ∀ (classifier : String) (classifiers : List String),
        ∃ tr, cacheRestoreListener restoreOptionsFixture classifier classifiers giFailing
          GoalProjectListenerEvent.before = Except.ok tr :=
  cacheRestore_miss_invokes_matching_fallbacks restoreOptionsFixture giFailing
    GoalProjectListenerEvent.before "default" "no cache entry" rfl rfl

/-- C7: with caching globally disabled, the cache-restore listener runs
the cache-miss fallback invocation unconditionally, without consulting
the backend: no classifier is retrieved, and the invoked fallbacks are
those whose phases and push test match, independently of the backend. -/
theorem cacheRestore_disabled_skips_backend
    (options : GoalCacheOptions) (classifier : String) (classifiers : List String)
    (gi : GoalInvocation) (event : GoalProjectListenerEvent)
    (hdisabled : isCacheEnabled gi = false) :
    cacheRestoreListener options classifier classifiers gi event
      = Except.ok
          { retrieved := []
            invoked :=
              ((options.onCacheMiss.getD [NoOpGoalProjectListenerRegistration]).filter
                (fun fb => fallbackMatches fb gi.push event)).map (fun fb => fb.name) } := by
  unfold cacheRestoreListener
  rw [if_neg (by simp [hdisabled])]
  simp only [invokeCacheMissListeners_eq_filter]
  rfl

/-- C7 witness: the disabled-cache fixture in the after phase retrieves
nothing and invokes exactly the matching fallbacks. -/
theorem cacheRestore_disabled_skips_backend_witness :
    cacheRestoreListener restoreOptionsFixture "default" ["deps"] giDisabled
        GoalProjectListenerEvent.after
      = Except.ok
          { retrieved := []
            invoked :=
              ((restoreOptionsFixture.onCacheMiss.getD
                  [NoOpGoalProjectListenerRegistration]).filter
                (fun fb => fallbackMatches fb giDisabled.push
                  GoalProjectListenerEvent.after)).map (fun fb => fb.name) } :=
  cacheRestore_disabled_skips_backend restoreOptionsFixture "default" ["deps"]
    giDisabled GoalProjectListenerEvent.after rfl

theorem normalizeGoal_signature_irrelevant (g : SdmGoalMessage)
    (sig : Option GoalSignature) :
    normalizeGoal { g with signature := sig } = normalizeGoal g := rfl

theorem normalizeGoal_push_irrelevant (g : SdmGoalMessage) (p : Option String) :
    normalizeGoal { g with push := p } = normalizeGoal g := rfl

theorem verifyGoal_accepts_of_key
    (g : SdmGoalMessage) (gsc : GoalSigningConfiguration)
    (henabled : gsc.enabled = true)
    (hsig : g.signature = some { signedContent := normalizeGoal g
                                 keyId := gsc.signingKey.keyId })
    (hkey : ∃ vk ∈ gsc.verificationKeys, vk.keyId = gsc.signingKey.keyId) :
    verifyGoal g gsc = { result := Except.ok g, published := [] } := by
  obtain ⟨vk, hmem, hid⟩ := hkey
  have hany : (gsc.verificationKeys.any fun k =>
      verifySignature (normalizeGoal g)
        { signedContent := normalizeGoal g, keyId := gsc.signingKey.keyId } k) = true := by
    refine List.any_eq_true.mpr ⟨vk, hmem, ?_⟩
    simp [verifySignature, hid]
  unfold verifyGoal
  rw [if_pos (by simp [henabled]), hsig]
  simp [hany]

theorem verifyGoal_rejects_of_bad_sig
    (g : SdmGoalMessage) (gsc : GoalSigningConfiguration) (sig : GoalSignature)
    (henabled : gsc.enabled = true)
    (hsig : g.signature = some sig)
    (hbad : sig.signedContent ≠ normalizeGoal g) :
    verifyGoal g gsc
      = { result := Except.error signatureInvalidError
          published := [rejectedGoalMessage g] } := by
  have hany : (gsc.verificationKeys.any fun k =>
      verifySignature (normalizeGoal g) sig k) = false := by
    refine List.any_eq_false.mpr ?_
    intro k _
    unfold verifySignature
    simp [hbad]
  unfold verifyGoal
  rw [if_pos (by simp [henabled]), hsig]
  simp [hany]

/-- C2: signGoal followed immediately by verifyGoal on the unmodified
signed result succeeds whenever signing is enabled and the verification
keys include the signing key; the signed result carries a signature and
the input message is unchanged apart from the attached envelope. -/
theorem signGoal_verifyGoal_roundtrip
    (g : SdmGoalMessage) (gsc : GoalSigningConfiguration)
    (henabled : gsc.enabled = true)
    (hkey : ∃ vk ∈ gsc.verificationKeys, vk.keyId = gsc.signingKey.keyId) :
    (verifyGoal (signGoal g gsc) gsc).result = Except.ok (signGoal g gsc)
    ∧ (signGoal g gsc).signature ≠ none
    ∧ { signGoal g gsc with signature := g.signature } = g := by
  have hver := verifyGoal_accepts_of_key (signGoal g gsc) gsc henabled rfl hkey
  refine ⟨by rw [hver], by simp [signGoal], rfl⟩

/-- C2 witness: round trip on the goalSigning test message with the test
key configuration. -/
theorem signGoal_verifyGoal_roundtrip_witness :
    (verifyGoal (signGoal goalMsgFixture gscFixture) gscFixture).result
      = Except.ok (signGoal goalMsgFixture gscFixture)
    ∧ (signGoal goalMsgFixture gscFixture).signature ≠ none
    ∧ { signGoal goalMsgFixture gscFixture with
          signature := goalMsgFixture.signature } = goalMsgFixture :=
  signGoal_verifyGoal_roundtrip goalMsgFixture gscFixture rfl
    ⟨{ name := "atomist.com/test", keyId := "sdm-core-test" }, by decide, rfl⟩

/-- C1: with signing enabled, altering any signature-covered field of a
signed goal message (any change visible in the canonical serialization,
for example the recorded external links) makes verifyGoal reject it: the
error is raised to the caller, and the goal is published through the
messaging collaborator with its state set to failure and a human-readable
reason; altering only the stripped-before-verification push enrichment
does not cause rejection. -/
theorem verifyGoal_rejects_tampered
    (g g' : SdmGoalMessage) (gsc : GoalSigningConfiguration) (p : Option String)
    (henabled : gsc.enabled = true)
    (htamper : normalizeGoal g' ≠ normalizeGoal g) :
    (verifyGoal { g' with signature := (signGoal g gsc).signature } gsc).result
      = Except.error "SDM goal signature invalid. Rejecting goal!"
    ∧ (verifyGoal { g' with signature := (signGoal g gsc).signature } gsc).published
      = [{ g' with signature := (signGoal g gsc).signature
                   state := SdmGoalState.failure
                   description := "Rejected " ++ g'.name ++ " because signature was invalid" }]
    ∧ ((∃ vk ∈ gsc.verificationKeys, vk.keyId = gsc.signingKey.keyId) →
        (verifyGoal { signGoal g gsc with push := p } gsc).result
          = Except.ok { signGoal g gsc with push := p }) := by
  have hbad : ({ signedContent := normalizeGoal g, keyId := gsc.signingKey.keyId }
      : GoalSignature).signedContent
        ≠ normalizeGoal { g' with signature := (signGoal g gsc).signature } :=
    fun hc => htamper (Eq.symm hc)
  have hreject := verifyGoal_rejects_of_bad_sig
    { g' with signature := (signGoal g gsc).signature } gsc
    { signedContent := normalizeGoal g, keyId := gsc.signingKey.keyId }
    henabled rfl hbad
  refine ⟨by rw [hreject]; rfl, by rw [hreject]; rfl, ?_⟩
  intro hkey
  have hver := verifyGoal_accepts_of_key { signGoal g gsc with push := p } gsc henabled rfl hkey
  rw [hver]

/-- C1 witness: the tampered-goal scenario of the goalSigning test, with
altered external links rejected and the push enrichment tolerated. -/
theorem verifyGoal_rejects_tampered_witness :
    (verifyGoal { goalMsgTamperedFixture with
        signature := (signGoal goalMsgFixture gscFixture).signature } gscFixture).result
      = Except.error "SDM goal signature invalid. Rejecting goal!"
    ∧ (verifyGoal { goalMsgTamperedFixture with
        signature := (signGoal goalMsgFixture gscFixture).signature } gscFixture).published
      = [{ goalMsgTamperedFixture with
             signature := (signGoal goalMsgFixture gscFixture).signature
             state := SdmGoalState.failure
             description := "Rejected " ++ goalMsgTamperedFixture.name
               ++ " because signature was invalid" }]
    ∧ ((∃ vk ∈ gscFixture.verificationKeys, vk.keyId = gscFixture.signingKey.keyId) →
        (verifyGoal { signGoal goalMsgFixture gscFixture with
            push := some "push-enrichment" } gscFixture).result
          = Except.ok { signGoal goalMsgFixture gscFixture with
              push := some "push-enrichment" }) :=
  verifyGoal_rejects_tampered goalMsgFixture goalMsgTamperedFixture gscFixture
    (some "push-enrichment") rfl (by decide)

theorem string_mk_data (s : String) : String.mk s.data = s := rfl

theorem scanQuoted_clean :
    ∀ (s r : List Char), (s.all fun c => c ≠ '"' && c ≠ '\\') = true →
      scanQuoted (s ++ '"' :: r) = some (s, r) := by
  intro s
  induction s with
  | nil =>
    intro r _
    simp [scanQuoted]
  | cons c cs ih =>
    intro r h
    rw [List.all_cons, Bool.and_eq_true] at h
    obtain ⟨hc, hcs⟩ := h
    rw [Bool.and_eq_true] at hc
    have hq : ¬ c = '"' := by simpa using hc.1
    have hb : ¬ c = '\\' := by simpa using hc.2
    show scanQuoted (c :: (cs ++ '"' :: r)) = some (c :: cs, r)
    unfold scanQuoted
    rw [if_neg hq, if_neg hb, ih r hcs]

theorem arrayBodyChars_length :
    ∀ ss : List String, ss.length ≤ (arrayBodyChars ss).length := by
  intro ss
  induction ss with
  | nil => simp [arrayBodyChars]
  | cons s tail ih =>
    cases tail with
    | nil => simp [arrayBodyChars]
    | cons s2 t2 =>
      show (s :: s2 :: t2).length
        ≤ ('"' :: (s.data ++ '"' :: ',' :: arrayBodyChars (s2 :: t2))).length
      simp only [List.length_cons, List.length_append] at ih ⊢
      omega

theorem skipSpaces_cons_of_ne (c : Char) (l : List Char) (h : ¬ c = ' ') :
    skipSpaces (c :: l) = c :: l := by
  unfold skipSpaces
  exact List.dropWhile_cons_of_neg (by simpa using h)

theorem parseArrayElems_rbracket (fuel : Nat) (rem : List Char) :
    parseArrayElems (fuel + 1) (']' :: rem) = some ([], rem) := by
  conv_lhs => unfold parseArrayElems
  rw [skipSpaces_cons_of_ne ']' rem (by decide)]
  rfl

theorem parseArrayElems_quote (fuel : Nat) (rest : List Char) :
    parseArrayElems (fuel + 1) ('"' :: rest)
      = match scanQuoted rest with
        | some (content, rem) =>
          (match skipSpaces rem with
           | ',' :: rem2 =>
             (match parseArrayElems fuel rem2 with
              | some (items, rem3) => some (content :: items, rem3)
              | none => none)
           | ']' :: rem2 => some ([content], rem2)
           | _ => none)
        | none => none := by
  conv_lhs => unfold parseArrayElems
  rw [skipSpaces_cons_of_ne '"' rest (by decide)]
  rfl

theorem parseArrayElems_encode :
    ∀ (ss : List String) (fuel : Nat), ss.length < fuel →
      (ss.all jsonTokenOk) = true →
      parseArrayElems fuel (arrayBodyChars ss) = some (ss.map String.data, []) := by
  intro ss
  induction ss with
  | nil =>
    intro fuel hf _
    cases fuel with
    | zero => omega
    | succ f =>
      show parseArrayElems (f + 1) [']'] = some ([], [])
      exact parseArrayElems_rbracket f []
  | cons s tail ih =>
    intro fuel hf hok
    rw [List.all_cons, Bool.and_eq_true] at hok
    obtain ⟨hs, htail⟩ := hok
    have hs' : (s.data.all fun c => c ≠ '"' && c ≠ '\\') = true := hs
    cases fuel with
    | zero => omega
    | succ f =>
      cases tail with
      | nil =>
        show parseArrayElems (f + 1) ('"' :: (s.data ++ '"' :: [']']))
          = some ([s.data], [])
        rw [parseArrayElems_quote, scanQuoted_clean s.data [']'] hs']
        rfl
      | cons s2 t2 =>
        show parseArrayElems (f + 1)
            ('"' :: (s.data ++ '"' :: ',' :: arrayBodyChars (s2 :: t2)))
          = some (s.data :: (s2 :: t2).map String.data, [])
        rw [parseArrayElems_quote]
        simp only [scanQuoted_clean s.data (',' :: arrayBodyChars (s2 :: t2)) hs',
          skipSpaces_cons_of_ne ',' (arrayBodyChars (s2 :: t2)) (by decide),
          ih f (Nat.lt_of_succ_lt_succ (by simpa using hf)) htail]

theorem parseJsonValue_encodeSelector :
    ∀ v : SelectorValue, selectorWellFormed v = true →
      parseJsonValue (encodeSelector v)
        = (match v with
           | SelectorValue.bare _ => none
           | SelectorValue.jstr s => some (JsonValue.jstr s)
           | SelectorValue.jarr ss => some (JsonValue.jarr ss)) := by
  intro v hv
  cases v with
  | bare s =>
    have : (parseJsonValue (encodeSelector (SelectorValue.bare s))).isNone = true := hv
    simpa [Option.isNone_iff_eq_none] using this
  | jstr s =>
    have hv' : (s.data.all fun c => c ≠ '"' && c ≠ '\\') = true := hv
    have hdata : (encodeSelector (SelectorValue.jstr s)).data
        = '"' :: (s.data ++ '"' :: []) := by
      show (("\"" ++ s ++ "\"" : String)).data = _
      rw [string_data_append, string_data_append]
      simp
    conv_lhs => unfold parseJsonValue
    rw [hdata, skipSpaces_cons_of_ne '"' (s.data ++ '"' :: []) (by decide)]
    simp only [scanQuoted_clean s.data [] hv']
    simp [skipSpaces, string_mk_data]
  | jarr ss =>
    have hdata : (encodeSelector (SelectorValue.jarr ss)).data
        = '[' :: arrayBodyChars ss := rfl
    have hlen : ss.length < (arrayBodyChars ss).length + 1 :=
      Nat.lt_succ_of_le (arrayBodyChars_length ss)
    have hmaps : (ss.map String.data).map String.mk = ss := by
      rw [List.map_map]
      have : ∀ t : List String, t.map (String.mk ∘ String.data) = t := by
        intro t
        induction t with
        | nil => rfl
        | cons a t2 iht => simp [iht, string_mk_data, Function.comp]
      exact this ss
    conv_lhs => unfold parseJsonValue
    rw [hdata, skipSpaces_cons_of_ne '[' (arrayBodyChars ss) (by decide)]
    simp only [parseArrayElems_encode ss ((arrayBodyChars ss).length + 1) hlen hv]
    simp [skipSpaces, hmaps]

theorem resolveSelectorValue_encode (v : SelectorValue)
    (hv : selectorWellFormed v = true) :
    resolveSelectorValue (encodeSelector v) = resolvedTokens v := by
  cases v with
  | bare s =>
    unfold resolveSelectorValue
    rw [parseJsonValue_encodeSelector _ hv]
    rfl
  | jstr s =>
    unfold resolveSelectorValue
    rw [parseJsonValue_encodeSelector _ hv]
    rfl
  | jarr ss =>
    unfold resolveSelectorValue
    rw [parseJsonValue_encodeSelector _ hv]
    rfl

theorem envTokens_encode :
    ∀ vars : List (Option SelectorValue),
      (vars.all fun ov => match ov with
        | some sv => selectorWellFormed sv
        | none => true) = true →
      ((vars.map (Option.map encodeSelector)).filterMap id).flatMap resolveSelectorValue
        = (vars.filterMap id).flatMap resolvedTokens := by
  intro vars
  induction vars with
  | nil => intro _; rfl
  | cons ov rest ih =>
    intro h
    rw [List.all_cons, Bool.and_eq_true] at h
    obtain ⟨hov, hrest⟩ := h
    cases ov with
    | none =>
      rw [List.map_cons, Option.map_none']
      rw [List.filterMap_cons_none (show id (none : Option String) = none from rfl),
        List.filterMap_cons_none (show id (none : Option SelectorValue) = none from rfl)]
      exact ih hrest
    | some sv =>
      rw [List.map_cons, Option.map_some']
      rw [List.filterMap_cons_some
          (show id (some (encodeSelector sv)) = some (encodeSelector sv) from rfl),
        List.filterMap_cons_some (show id (some sv) = some sv from rfl),
        List.flatMap_cons, List.flatMap_cons,
        resolveSelectorValue_encode sv hov, ih hrest]

theorem filterMap_id_map_none (vars : List (Option SelectorValue)) :
    (vars.map fun _ => (none : Option String)).filterMap id = [] := by
  induction vars with
  | nil => rfl
  | cons ov rest ih =>
    rw [List.map_cons,
      List.filterMap_cons_none (show id (none : Option String) = none from rfl)]
    exact ih

/-- C8: over an explicit snapshot in which each selector variable is
absent or holds an encoded well-formed value (a bare token, a JSON
string, or a JSON array of strings), isConfiguredInEnv returns true iff
some requested candidate lies in the union of the tokens resolved from
the present variables; and with no variable set it returns false for
every candidate list. -/
theorem isConfiguredInEnv_union
    (vars : List (Option SelectorValue)) (candidates : List String)
    (hwf : (vars.all fun ov => match ov with
      | some sv => selectorWellFormed sv
      | none => true) = true) :
    (isConfiguredInEnv (vars.map (Option.map encodeSelector)) candidates = true
      ↔ ∃ c ∈ candidates, ∃ sv, some sv ∈ vars ∧ c ∈ resolvedTokens sv)
    ∧ isConfiguredInEnv (vars.map fun _ => none) candidates = false := by
  constructor
  · unfold isConfiguredInEnv
    rw [envTokens_encode vars hwf, List.any_eq_true]
    apply exists_congr
    intro c
    apply and_congr_right
    intro _
    rw [show ((vars.filterMap id).flatMap resolvedTokens).contains c
      = ((vars.filterMap id).flatMap resolvedTokens).elem c from rfl]
    rw [List.elem_iff, List.mem_flatMap]
    constructor
    · rintro ⟨sv, hsvmem, hc⟩
      obtain ⟨ov, hov, hid⟩ := List.mem_filterMap.mp hsvmem
      exact ⟨sv, by rw [← hid]; exact hov, hc⟩
    · rintro ⟨sv, hsv, hc⟩
      exact ⟨sv, List.mem_filterMap.mpr ⟨some sv, hsv, rfl⟩, hc⟩
  · unfold isConfiguredInEnv
    rw [filterMap_id_map_none vars]
    simp

/-- C8 witness: the JSON-array snapshot of the unit tests, with one
variable holding an array and the other unset. -/
theorem isConfiguredInEnv_union_witness :
    (isConfiguredInEnv (selectorVarsFixture.map (Option.map encodeSelector))
        ["docker", "kubernetes"] = true
      ↔ ∃ c ∈ ["docker", "kubernetes"], ∃ sv, some sv ∈ selectorVarsFixture
          ∧ c ∈ resolvedTokens sv)
    ∧ isConfiguredInEnv (selectorVarsFixture.map fun _ => none)
        ["docker", "kubernetes"] = false :=
  isConfiguredInEnv_union selectorVarsFixture ["docker", "kubernetes"] (by decide)
